import Mathlib

/-!
Verification of the beholder failover-reconciliation daemon
(src/beholder.py) against its design specification.

The daemon is embedded shallowly:

* Python strings are `List Char`; `pySplit sep` is the semantics of
  Python's `str.split(sep)` for a one-character separator (empty groups
  between consecutive separators are kept, `''.split(sep) = ['']`).
* `decodeEntry` / `encodeEntry` embed the per-entry decoding and the
  re-encoding performed inline in `Beholder._update_masters`.
* The proxy configuration is the ordered list of pools that
  `yaml.safe_load` hands to `_update_masters`; each pool is its name
  together with its ordered list of server strings.
* Fallible I/O (opening the config file for reading or writing) is an
  oracle input; an uncaught Python exception is modelled explicitly
  (`Option.none` inside the reconciler, `SwitchOutcome.crashed` at the
  event level, `Completion.raised` at process level).
-/

namespace Beholder

/-- Semantics of Python `s.split(sep)` for a single-character separator,
on strings as `List Char`.  `pySplit sep [] = [[]]` just as
`''.split(sep) == ['']` in Python, and consecutive separators produce
empty groups. -/
def pySplit (sep : Char) : List Char → List (List Char)
  | [] => [[]]
  | c :: cs =>
    if c = sep then
      [] :: pySplit sep cs
    else
      match pySplit sep cs with
      | [] => [[c]]
      | g :: gs => (c :: g) :: gs

/-- A decoded server entry of the twemproxy configuration: the fields
read out of a `host:port:weight[ name]` string by `_update_masters`
(lines 161-172 of beholder.py). -/
structure ServerEntry where
  host : List Char
  port : List Char
  weight : List Char
  name : List Char
deriving DecidableEq

/-- Embeds lines 161-172 of `_update_masters`:
`server_data = server.split(' ')`, `url_data = server_data[0].split(':')`,
`host = url_data[0]`, `port = url_data[1]`, `number = url_data[2]`,
and `name = server_data[1]` with the bare `except` defaulting it to `''`.
`none` models the uncaught `IndexError` raised when `url_data` has fewer
than three segments (that access is outside any `try`). -/
def decodeEntry (server : List Char) : Option ServerEntry :=
  let server_data := pySplit ' ' server
  let url_data := pySplit ':' (server_data.headD [])
  match url_data with
  | h :: p :: w :: _ => some ⟨h, p, w, server_data.tail.headD []⟩
  | _ => none

/-- Embeds the re-encoding on line 178 of `_update_masters`:
`host + ':' + str(port) + ':' + str(number) + ' ' + name`.  Note the
space and the name are appended unconditionally, even when `name` is
empty. -/
def encodeEntry (e : ServerEntry) : List Char :=
  e.host ++ ':' :: e.port ++ ':' :: e.weight ++ ' ' :: e.name

/-- One pool of the twemproxy configuration: its name (a top-level yaml
key) and its ordered `servers` list of raw entry strings. -/
structure Pool where
  poolName : List Char
  servers : List (List Char)
deriving DecidableEq

/-- The proxy configuration document as `_update_masters` iterates it:
the ordered sequence of pools. -/
abbrev ProxyConfig := List Pool

/-- The entry string at pool index `j`, entry index `k` of a
configuration, when both indices are in range. -/
def entryAt (cfg : ProxyConfig) (j k : Nat) : Option (List Char) :=
  match cfg.get? j with
  | none => none
  | some p => p.servers.get? k

/-- Embeds the match test on line 175 of `_update_masters`:
`str(host) == str(old_server) and str(port) == str(old_port)` for a
decodable entry (an undecodable entry never reaches the test: the
decode raises first). -/
def entryMatches (oldH oldP : List Char) (server : List Char) : Bool :=
  match decodeEntry server with
  | some e => decide (e.host = oldH ∧ e.port = oldP)
  | none => false

/-- Embeds the per-entry effect of the loop body of `_update_masters`
(lines 161-180): a matching entry is replaced by the re-encoded
`newHost:newPort:weight name` string, any other entry is left as it
was.  Used to characterise `rewriteServer` on decodable entries. -/
def rewriteEntry (oldH oldP newH newP : List Char) (server : List Char) : List Char :=
  match decodeEntry server with
  | some e =>
    if e.host = oldH ∧ e.port = oldP then
      encodeEntry ⟨newH, newP, e.weight, e.name⟩
    else
      server
  | none => server

/-- Pool-level image of one reconciliation pass: every entry rewritten
by `rewriteEntry`, the pool name untouched. -/
def poolRewrite (oldH oldP newH newP : List Char) (p : Pool) : Pool :=
  ⟨p.poolName, p.servers.map (rewriteEntry oldH oldP newH newP)⟩

/-- One iteration of the inner entry loop of `_update_masters`:
decode the entry (an undecodable entry raises, `none`), compare against
the old master address, and on a match produce the re-encoded string
together with the `b_updated = True` flag. -/
def rewriteServer (oldH oldP newH newP : List Char) (server : List Char) :
    Option (List Char × Bool) :=
  match decodeEntry server with
  | none => none
  | some e =>
    if e.host = oldH ∧ e.port = oldP then
      some (encodeEntry ⟨newH, newP, e.weight, e.name⟩, true)
    else
      some (server, false)

/-- The inner entry loop of `_update_masters` over one pool's `servers`
list, accumulating the `b_updated` flag; `none` propagates an uncaught
exception from any entry. -/
def rewriteServers (oldH oldP newH newP : List Char) :
    List (List Char) → Option (List (List Char) × Bool)
  | [] => some ([], false)
  | s :: ss =>
    match rewriteServer oldH oldP newH newP s with
    | none => none
    | some (s', b) =>
      match rewriteServers oldH oldP newH newP ss with
      | none => none
      | some (ss', b') => some (s' :: ss', b || b')

/-- The outer pool loop of `_update_masters` (lines 159-180) over the
whole loaded document, in document order. -/
def rewriteConfig (oldH oldP newH newP : List Char) :
    ProxyConfig → Option (ProxyConfig × Bool)
  | [] => some ([], false)
  | p :: ps =>
    match rewriteServers oldH oldP newH newP p.servers with
    | none => none
    | some (ss', b) =>
      match rewriteConfig oldH oldP newH newP ps with
      | none => none
      | some (ps', b') => some (⟨p.poolName, ss'⟩ :: ps', b || b')

/-- Outcome oracle for the two fallible file operations of one
`_update_masters` call: whether opening/loading the twemproxy
configuration succeeds, and whether writing it back succeeds. -/
structure IOOracle where
  loadOk : Bool
  writeOk : Bool
deriving DecidableEq

/-- Result of one `_update_masters` call that did not raise:
`loadFailed` is the fall-through `return None` path after the caught
load exception (no write is attempted); `done written writeOk changed`
is the path through the `else` block, where `written` is the document
handed to `yaml.dump`, `writeOk` tells whether the write succeeded and
`changed` is the returned `b_updated` value. -/
inductive UpdateResult where
  | loadFailed : UpdateResult
  | done : ProxyConfig → Bool → Bool → UpdateResult
deriving DecidableEq

/-- Whether the call reached the write attempt (the `yaml.dump` call). -/
def UpdateResult.writeAttempted : UpdateResult → Bool
  | .loadFailed => false
  | .done _ _ _ => true

/-- Truthiness of the value `_update_masters` returns to
`_switch_master`: the fall-through `None` of the load-failure path is
falsy, otherwise the returned `b_updated` flag. -/
def UpdateResult.reportedChanged : UpdateResult → Bool
  | .loadFailed => false
  | .done _ _ ch => ch

/-- Embeds `_update_masters` (lines 149-189): load the document (a load
failure is caught, logged and falls through returning `None`); rewrite
every pool; attempt the write unconditionally, and on a write failure
force `b_updated = False`.  `none` is an uncaught exception escaping
from the entry loop. -/
def updateMasters (io : IOOracle) (file : ProxyConfig)
    (oldH oldP newH newP : List Char) : Option UpdateResult :=
  if io.loadOk then
    match rewriteConfig oldH oldP newH newP file with
    | none => none
    | some (cfg', upd) =>
      some (.done cfg' io.writeOk (if io.writeOk then upd else false))
  else
    some .loadFailed

/-- Contents of the configuration file after one `_update_masters`
call: only a successful write replaces it. -/
def fileAfterUpdate (file : ProxyConfig) : UpdateResult → ProxyConfig
  | .loadFailed => file
  | .done cfg' wOk _ => if wOk then cfg' else file

/-- Outcome of one `_switch_master` call: a wrong-arity warning (token
count `<= 3`), an uncaught exception (which propagates out of
`execute`'s loop), or a completed reconciliation carrying the
`_update_masters` result and the number of `_restart_twemproxy`
invocations. -/
inductive SwitchOutcome where
  | warned : SwitchOutcome
  | crashed : SwitchOutcome
  | handled : UpdateResult → Nat → SwitchOutcome
deriving DecidableEq

/-- Embeds `_switch_master` (lines 133-147) applied to the token list
`str(message['data']).split(' ')`.  Under the guard
`len(switch_master_info) > 3` the code reads indices 1, 2, 3 and 4;
a four-token list therefore raises `IndexError` on index 4
(`crashed`).  With at least five tokens, `_update_masters` runs and
`_restart_twemproxy` is invoked exactly when its result is truthy. -/
def switchMaster (io : IOOracle) (file : ProxyConfig)
    (tokens : List (List Char)) : SwitchOutcome :=
  if tokens.length > 3 then
    match tokens.get? 1, tokens.get? 2, tokens.get? 3, tokens.get? 4 with
    | some o1, some o2, some n1, some n2 =>
      match updateMasters io file o1 o2 n1 n2 with
      | none => .crashed
      | some u => .handled u (if u.reportedChanged then 1 else 0)
    | _, _, _, _ => .crashed
  else
    .warned

/-- One item returned by `pubsub.get_message()` inside `execute`'s
loop: either a channel message with its payload string, or anything
else (subscription acknowledgements, or no message), which the
`message['type'] == 'message'` check discards. -/
inductive Message where
  | payload : List Char → Message
  | other : Message

/-- What a run of `execute`'s listening loop produced: the outcomes of
the processed events in order, the final contents of the configuration
file, and whether the loop was terminated by an uncaught exception. -/
structure LoopResult where
  outcomes : List SwitchOutcome
  finalFile : ProxyConfig
  crashed : Bool
deriving DecidableEq

/-- Embeds the listening loop of `execute` (lines 97-102) over a finite
trace of polled messages, each paired with the I/O oracle of its
reconciliation.  A crash in `_switch_master` propagates: the loop
terminates at once and later messages are never processed. -/
def runLoop (file : ProxyConfig) : List (Message × IOOracle) → LoopResult
  | [] => ⟨[], file, false⟩
  | (Message.other, _) :: rest => runLoop file rest
  | (Message.payload d, io) :: rest =>
    match switchMaster io file (pySplit ' ' d) with
    | .crashed => ⟨[.crashed], file, true⟩
    | .warned =>
      let r := runLoop file rest
      ⟨.warned :: r.outcomes, r.finalFile, r.crashed⟩
    | .handled u n =>
      let r := runLoop (fileAfterUpdate file u) rest
      ⟨.handled u n :: r.outcomes, r.finalFile, r.crashed⟩

/-- The retry decision of `_connect` (line 122), as the RetryPolicy
contract reads it: retrying stops exactly when
`beholder_connect_retry_count > 0 and retry_count >= beholder_connect_retry_count`. -/
def shouldRetry (limit attempts : Int) : Bool :=
  if limit > 0 ∧ attempts ≥ limit then false else true

/-- The full RetryPolicy decision: whether to retry, and the fixed
backoff `time.sleep(beholder_connect_retry_interval / 1000)`, i.e.
`intervalMillis` milliseconds, applied before every retry. -/
def nextDelay (limit attempts intervalMillis : Int) : Bool × Int :=
  (shouldRetry limit attempts, intervalMillis)

/-- Embeds the `while` loop of `_connect` (lines 112-131) over a finite
trace of attempt outcomes (`true` = the connect/subscribe block
succeeded).  Returns `(b_connected, stop_event set by exhaustion)`;
`none` means the trace ended before the loop did.  On a failed attempt
the code checks exhaustion against the current `retry_count` and only
otherwise increments it and sleeps. -/
def connectLoop (limit : Int) : List Bool → Int → Option (Bool × Bool)
  | [], _ => none
  | ok :: rest, retryCount =>
    if ok then
      some (true, false)
    else if limit > 0 ∧ retryCount ≥ limit then
      some (false, true)
    else
      connectLoop limit rest (retryCount + 1)

/-- Embeds `execute` (lines 95-103): run `_connect`; only when it
returns `True` is the listening loop entered, otherwise the method
falls through to the final `Beholder stopped` log with no message ever
processed. -/
def executeDaemon (limit : Int) (attempts : List Bool) (file : ProxyConfig)
    (msgs : List (Message × IOOracle)) : Option LoopResult :=
  match connectLoop limit attempts 0 with
  | none => none
  | some (true, _) => some (runLoop file msgs)
  | some (false, _) => some ⟨[], file, false⟩

/-- A Python exception as seen by the top-level `__main__` block:
`SystemExit` with its code (raised by `sys.exit`), or any other
exception. -/
inductive Exc where
  | systemExit : Int → Exc
  | err : Exc
deriving DecidableEq

/-- How a Python block completes: normally, or by raising. -/
inductive Completion where
  | normal : Completion
  | raised : Exc → Completion
deriving DecidableEq

/-- Python `try/finally` semantics: if the `finally` suite completes
abruptly (here: by raising `SystemExit`), its completion replaces the
body's completion, discarding any in-flight exception. -/
def tryFinally (body fin : Completion) : Completion :=
  match fin with
  | .raised e => .raised e
  | .normal => body

/-- Embeds the `__main__` block (lines 195-209).  With a pre-existing
pidfile the block is `sys.exit(1)`.  Otherwise the try suite (create
the pidfile, construct `Beholder`, run `execute`) completes with
`loopCompletion`, and the `finally` suite deletes the pidfile and then
raises `SystemExit 0` via `sys.exit(0)`, unconditionally. -/
def mainProgram (pidfileExists : Bool) (loopCompletion : Completion) : Completion :=
  if pidfileExists then
    .raised (.systemExit 1)
  else
    tryFinally loopCompletion (.raised (.systemExit 0))

/-- The process exit status determined by a top-level completion:
`SystemExit` exits with its code, any other uncaught exception exits
with status 1, normal completion exits 0. -/
def processExitStatus : Completion → Int
  | .normal => 0
  | .raised (.systemExit n) => n
  | .raised .err => 1

/-- The example twemproxy configuration used by the specification's
test scenarios (section 8): one pool with two named shard entries. -/
def sampleConfig : ProxyConfig :=
  [⟨"pool_a".toList, ["10.0.0.1:6379:1 shardA".toList, "10.0.0.2:6380:1 shardB".toList]⟩]

theorem pySplit_ne_nil (sep : Char) (cs : List Char) : pySplit sep cs ≠ [] := by
  cases cs with
  | nil => simp [pySplit]
  | cons c cs =>
    by_cases h : c = sep
    · simp [pySplit, h]
    · simp only [pySplit, if_neg h]
      cases pySplit sep cs <;> simp

theorem pySplit_of_not_mem (sep : Char) (xs : List Char) (h : sep ∉ xs) :
    pySplit sep xs = [xs] := by
  induction xs with
  | nil => rfl
  | cons c cs ih =>
    have hc : ¬ c = sep := fun hcs => h (hcs ▸ List.mem_cons_self c cs)
    have hcs : sep ∉ cs := fun hm => h (List.mem_cons_of_mem c hm)
    simp only [pySplit, if_neg hc, ih hcs]

theorem pySplit_append (sep : Char) (xs ys : List Char) (h : sep ∉ xs) :
    pySplit sep (xs ++ sep :: ys) = xs :: pySplit sep ys := by
  induction xs with
  | nil => simp [pySplit]
  | cons c cs ih =>
    have hc : ¬ c = sep := fun hcs => h (hcs ▸ List.mem_cons_self c cs)
    have hcs : sep ∉ cs := fun hm => h (List.mem_cons_of_mem c hm)
    simp only [List.cons_append, pySplit, if_neg hc, List.append_eq, ih hcs]

theorem rewriteServer_eq (oldH oldP newH newP server : List Char)
    (h : (decodeEntry server).isSome) :
    rewriteServer oldH oldP newH newP server =
      some (rewriteEntry oldH oldP newH newP server, entryMatches oldH oldP server) := by
  match he : decodeEntry server with
  | none => rw [he] at h; simp at h
  | some e =>
    simp only [rewriteServer, rewriteEntry, entryMatches, he]
    by_cases hm : e.host = oldH ∧ e.port = oldP
    · simp [hm]
    · simp [hm]

theorem rewriteServers_eq (oldH oldP newH newP : List Char) (ss : List (List Char))
    (h : ∀ s ∈ ss, (decodeEntry s).isSome) :
    rewriteServers oldH oldP newH newP ss =
      some (ss.map (rewriteEntry oldH oldP newH newP), ss.any (entryMatches oldH oldP)) := by
  induction ss with
  | nil => rfl
  | cons s ss ih =>
    have hs : (decodeEntry s).isSome := h s (List.mem_cons_self s ss)
    have hss : ∀ x ∈ ss, (decodeEntry x).isSome := fun x hx => h x (List.mem_cons_of_mem s hx)
    simp only [rewriteServers, rewriteServer_eq oldH oldP newH newP s hs, ih hss,
      List.map_cons, List.any_cons]

theorem rewriteConfig_eq (oldH oldP newH newP : List Char) (cfg : ProxyConfig)
    (h : ∀ p ∈ cfg, ∀ s ∈ p.servers, (decodeEntry s).isSome) :
    rewriteConfig oldH oldP newH newP cfg =
      some (cfg.map (poolRewrite oldH oldP newH newP),
        cfg.any (fun p => p.servers.any (entryMatches oldH oldP))) := by
  induction cfg with
  | nil => rfl
  | cons p ps ih =>
    have hp : ∀ s ∈ p.servers, (decodeEntry s).isSome :=
      h p (List.mem_cons_self p ps)
    have hps : ∀ q ∈ ps, ∀ s ∈ q.servers, (decodeEntry s).isSome :=
      fun q hq => h q (List.mem_cons_of_mem p hq)
    simp only [rewriteConfig, rewriteServers_eq oldH oldP newH newP p.servers hp, ih hps,
      List.map_cons, List.any_cons, poolRewrite]

theorem rewriteEntry_of_match (oldH oldP newH newP server : List Char) (e : ServerEntry)
    (he : decodeEntry server = some e) (hh : e.host = oldH) (hp : e.port = oldP) :
    rewriteEntry oldH oldP newH newP server = encodeEntry ⟨newH, newP, e.weight, e.name⟩ := by
  simp [rewriteEntry, he, hh, hp]

theorem rewriteEntry_of_not_match (oldH oldP newH newP server : List Char)
    (h : entryMatches oldH oldP server = false) :
    rewriteEntry oldH oldP newH newP server = server := by
  match he : decodeEntry server with
  | none => simp [rewriteEntry, he]
  | some e =>
    simp only [entryMatches, he, decide_eq_false_iff_not] at h
    simp [rewriteEntry, he, h]

theorem entryMatches_of_decode (oldH oldP server : List Char) (e : ServerEntry)
    (he : decodeEntry server = some e) (hh : e.host = oldH) (hp : e.port = oldP) :
    entryMatches oldH oldP server = true := by
  simp [entryMatches, he, hh, hp]

theorem entryAt_map (oldH oldP newH newP : List Char) (cfg : ProxyConfig) (j k : Nat) :
    entryAt (cfg.map (poolRewrite oldH oldP newH newP)) j k =
      (entryAt cfg j k).map (rewriteEntry oldH oldP newH newP) := by
  simp only [entryAt, List.get?_map]
  match cfg.get? j with
  | none => rfl
  | some p => simp [poolRewrite, List.get?_map]

theorem entryAt_some (cfg : ProxyConfig) (j k : Nat) (s : List Char)
    (h : entryAt cfg j k = some s) :
    ∃ p, cfg.get? j = some p ∧ p.servers.get? k = some s := by
  unfold entryAt at h
  match hj : cfg.get? j with
  | none => rw [hj] at h; simp at h
  | some p => rw [hj] at h; exact ⟨p, rfl, h⟩

theorem map_id_of_eq {α : Type} (f : α → α) (l : List α) (h : ∀ a ∈ l, f a = a) :
    l.map f = l := by
  induction l with
  | nil => rfl
  | cons a l ih =>
    simp [h a (List.mem_cons_self a l), ih (fun b hb => h b (List.mem_cons_of_mem a hb))]

theorem poolRewrite_of_no_match (oldH oldP newH newP : List Char) (p : Pool)
    (h : ∀ s ∈ p.servers, entryMatches oldH oldP s = false) :
    poolRewrite oldH oldP newH newP p = p := by
  unfold poolRewrite
  rw [map_id_of_eq _ p.servers (fun s hs => rewriteEntry_of_not_match _ _ _ _ s (h s hs))]

theorem connectLoop_all_fail (limit : Int) :
    ∀ (n : Nat) (rc : Int), 0 < limit → rc ≤ limit → limit < rc + n →
      connectLoop limit (List.replicate n false) rc = some (false, true) := by
  intro n
  induction n with
  | zero => intro rc h1 h2 h3; omega
  | succ n ih =>
    intro rc h1 h2 h3
    simp only [List.replicate_succ, connectLoop, if_neg (Bool.false_ne_true)]
    by_cases h : rc ≥ limit
    · rw [if_pos ⟨h1, h⟩]
    · rw [if_neg (fun hc => h hc.2)]
      exact ih (rc + 1) h1 (by omega) (by omega)

/-- Claim C1.  The claim is violated by the code: `_switch_master`
guards with `len(switch_master_info) > 3` but then reads
`switch_master_info[4]`, so a payload whose split yields exactly four
tokens raises an uncaught `IndexError`; the exception escapes the
listening loop of `execute`, so processing that payload terminates the
daemon and any later queued message is never processed.  This theorem
evaluates the embedded code at the failing input
`mymaster 10.0.0.1 6379 10.0.0.5`. -/
theorem C1_four_token_payload_crashes_daemon :
    switchMaster ⟨true, true⟩ sampleConfig
        (pySplit ' ' ("mymaster 10.0.0.1 6379 10.0.0.5".toList)) = SwitchOutcome.crashed ∧
    (pySplit ' ' ("mymaster 10.0.0.1 6379 10.0.0.5".toList)).length = 4 ∧
    runLoop sampleConfig
        [(Message.payload ("mymaster 10.0.0.1 6379 10.0.0.5".toList), ⟨true, true⟩),
          (Message.payload ("mymaster 10.0.0.1 6379 10.0.0.5 6381".toList), ⟨true, true⟩)] =
      ⟨[SwitchOutcome.crashed], sampleConfig, true⟩ :=
  ⟨by decide, by decide, by decide⟩

/-- Claim C4: the retry decision is false exactly when
`limit > 0 ∧ attempts ≥ limit`, otherwise true with delay
`intervalMillis`; a non-positive limit retries indefinitely; with
`limit = 3` the first three decisions (attempts 0, 1, 2) are true and
the fourth (attempts 3, i.e. after retrying three failed attempts) is
false; with `limit = 0` the decision is always true. -/
theorem C4_retry_policy :
    (∀ limit attempts intervalMillis : Int,
      ((nextDelay limit attempts intervalMillis).1 = false ↔ limit > 0 ∧ attempts ≥ limit) ∧
      ((nextDelay limit attempts intervalMillis).1 = true →
        (nextDelay limit attempts intervalMillis).2 = intervalMillis) ∧
      (limit ≤ 0 → (nextDelay limit attempts intervalMillis).1 = true)) ∧
    (shouldRetry 3 0 = true ∧ shouldRetry 3 1 = true ∧ shouldRetry 3 2 = true ∧
      shouldRetry 3 3 = false) ∧
    (∀ attempts : Int, shouldRetry 0 attempts = true) := by
  refine ⟨fun limit attempts intervalMillis => ?_, ⟨by decide, by decide, by decide, by decide⟩,
    fun attempts => ?_⟩
  · unfold nextDelay shouldRetry
    by_cases h : limit > 0 ∧ attempts ≥ limit
    · rw [if_pos h]
      exact ⟨⟨fun _ => h, fun _ => rfl⟩, fun hc => by simp at hc, fun hle => absurd h.1 (by omega)⟩
    · rw [if_neg h]
      exact ⟨⟨fun hc => absurd hc (by simp), fun hc => absurd hc h⟩, fun _ => rfl, fun _ => rfl⟩
  · unfold shouldRetry
    rw [if_neg (fun hc => by omega)]

/-- Witness for C4 at the concrete inputs of the claim. -/
theorem C4_retry_policy_witness :
    (nextDelay 3 3 100).1 = false ∧ (nextDelay 3 2 100).2 = 100 ∧ (nextDelay 0 7 100).1 = true :=
  ⟨(C4_retry_policy.1 3 3 100).1.mpr (by decide),
    (C4_retry_policy.1 3 2 100).2.1 (by decide),
    (C4_retry_policy.1 0 7 100).2.2 (by decide)⟩

/-- Claim C5: when every connection attempt fails and the positive
retry limit is exhausted, `_connect` sets the shared stop event and
returns `False`, and `execute` then skips the listening loop entirely:
no message is ever processed and the daemon proceeds to shutdown. -/
theorem C5_retry_exhaustion_sets_stop_and_shuts_down (limit : Int) (n : Nat)
    (hl : 0 < limit) (hn : limit < (n : Int)) :
    connectLoop limit (List.replicate n false) 0 = some (false, true) ∧
    ∀ (file : ProxyConfig) (msgs : List (Message × IOOracle)),
      executeDaemon limit (List.replicate n false) file msgs = some ⟨[], file, false⟩ := by
  have h := connectLoop_all_fail limit n 0 hl (le_of_lt hl) (by omega)
  refine ⟨h, fun file msgs => ?_⟩
  unfold executeDaemon
  rw [h]

/-- Witness for C5 with `limit = 3` and four failed attempts. -/
theorem C5_retry_exhaustion_witness :
    connectLoop 3 (List.replicate 4 false) 0 = some (false, true) ∧
    executeDaemon 3 (List.replicate 4 false) sampleConfig [] =
      some ⟨[], sampleConfig, false⟩ := by
  have h := C5_retry_exhaustion_sets_stop_and_shuts_down 3 4 (by decide) (by decide)
  exact ⟨h.1, h.2 sampleConfig []⟩

/-- Claim C10: once the daemon has started (no pre-existing pidfile),
the `finally` suite of the `__main__` block deletes the pidfile and
calls `sys.exit(0)` unconditionally; the raised `SystemExit 0` replaces
any completion of the try suite, so the process exits with status 0
whatever the main loop did — in particular even when the loop raised an
uncaught exception, so status 0 does not distinguish a graceful
shutdown from a crash. -/
theorem C10_exit_status_always_zero_once_started (c : Completion) :
    processExitStatus (mainProgram false c) = 0 ∧
    processExitStatus (mainProgram false (Completion.raised Exc.err)) = 0 :=
  ⟨rfl, rfl⟩

/-- Claim C2: if the configuration holds an entry at pool index `pi`,
entry index `i` whose decoded `(host, port)` equals
`(oldH, oldP)` — and no other entry matches — then the rewrite pass of
`_update_masters` replaces exactly that entry with the re-encoded
`newH:newP:weight name` string (its weight and name segments
untouched), reports a change, keeps every other entry byte-identical,
keeps every pool name and every position, and drops nothing. -/
theorem C2_reconciler_rewrites_exactly_the_matching_entry
    (cfg : ProxyConfig) (pi i : Nat) (oldH oldP newH newP s0 : List Char) (e0 : ServerEntry)
    (hwf : ∀ p ∈ cfg, ∀ s ∈ p.servers, (decodeEntry s).isSome)
    (hs0 : entryAt cfg pi i = some s0)
    (he0 : decodeEntry s0 = some e0)
    (hh : e0.host = oldH) (hp : e0.port = oldP)
    (huniq : ∀ j k s, entryAt cfg j k = some s → ¬(j = pi ∧ k = i) →
      entryMatches oldH oldP s = false) :
    ∃ newCfg,
      rewriteConfig oldH oldP newH newP cfg = some (newCfg, true) ∧
      newCfg.length = cfg.length ∧
      (∀ j, (newCfg.get? j).map Pool.poolName = (cfg.get? j).map Pool.poolName) ∧
      (∀ j p q, cfg.get? j = some p → newCfg.get? j = some q →
        q.servers.length = p.servers.length) ∧
      entryAt newCfg pi i = some (encodeEntry ⟨newH, newP, e0.weight, e0.name⟩) ∧
      (∀ j k, ¬(j = pi ∧ k = i) → entryAt newCfg j k = entryAt cfg j k) := by
  obtain ⟨P, hP, hPi⟩ := entryAt_some cfg pi i s0 hs0
  have hmem : P ∈ cfg := List.get?_mem hP
  have hs0mem : s0 ∈ P.servers := List.get?_mem hPi
  have hflag : cfg.any (fun p => p.servers.any (entryMatches oldH oldP)) = true :=
    List.any_eq_true.mpr ⟨P, hmem, List.any_eq_true.mpr
      ⟨s0, hs0mem, entryMatches_of_decode oldH oldP s0 e0 he0 hh hp⟩⟩
  refine ⟨cfg.map (poolRewrite oldH oldP newH newP), ?_, ?_, ?_, ?_, ?_, ?_⟩
  · rw [rewriteConfig_eq oldH oldP newH newP cfg hwf, hflag]
  · exact List.length_map cfg _
  · intro j
    rw [List.get?_map]
    cases cfg.get? j with
    | none => rfl
    | some p => rfl
  · intro j p q hpj hqj
    rw [List.get?_map, hpj] at hqj
    have hq : q = poolRewrite oldH oldP newH newP p := (Option.some.inj hqj).symm
    rw [hq]
    exact List.length_map p.servers _
  · rw [entryAt_map, hs0]
    rw [Option.map_some', rewriteEntry_of_match oldH oldP newH newP s0 e0 he0 hh hp]
  · intro j k hne
    rw [entryAt_map]
    cases he : entryAt cfg j k with
    | none => rfl
    | some s =>
      rw [Option.map_some', rewriteEntry_of_not_match _ _ _ _ s (huniq j k s he hne)]

/-- Witness for C2: the specification's first scenario — pool `pool_a`
with two entries, failover `10.0.0.1:6379` to `10.0.0.5:6381`, matching
the entry at pool 0, index 0 only. -/
theorem C2_reconciler_witness :
    ∃ newCfg,
      rewriteConfig "10.0.0.1".toList "6379".toList "10.0.0.5".toList "6381".toList
          sampleConfig = some (newCfg, true) ∧
      newCfg.length = sampleConfig.length ∧
      (∀ j, (newCfg.get? j).map Pool.poolName = (sampleConfig.get? j).map Pool.poolName) ∧
      (∀ j p q, sampleConfig.get? j = some p → newCfg.get? j = some q →
        q.servers.length = p.servers.length) ∧
      entryAt newCfg 0 0 =
        some (encodeEntry ⟨"10.0.0.5".toList, "6381".toList, "1".toList, "shardA".toList⟩) ∧
      (∀ j k, ¬(j = 0 ∧ k = 0) → entryAt newCfg j k = entryAt sampleConfig j k) := by
  apply C2_reconciler_rewrites_exactly_the_matching_entry sampleConfig 0 0
    "10.0.0.1".toList "6379".toList "10.0.0.5".toList "6381".toList
    "10.0.0.1:6379:1 shardA".toList
    ⟨"10.0.0.1".toList, "6379".toList, "1".toList, "shardA".toList⟩
    (by decide) (by decide) (by decide) (by decide) (by decide)
  intro j k s hjk hne
  match j, k with
  | 0, 0 => exact absurd ⟨rfl, rfl⟩ hne
  | 0, 1 =>
    have h2 : s = "10.0.0.2:6380:1 shardB".toList :=
      (Option.some.inj ((by decide : entryAt sampleConfig 0 1 =
        some ("10.0.0.2:6380:1 shardB".toList)).symm.trans hjk)).symm
    rw [h2]
    decide
  | 0, Nat.succ (Nat.succ k) => exact absurd hjk (by intro hc; rw [show entryAt sampleConfig 0 (k + 2) = none from rfl] at hc; cases hc)
  | Nat.succ j, k => exact absurd hjk (by intro hc; rw [show entryAt sampleConfig (j + 1) k = none from rfl] at hc; cases hc)

/-- Claim C3 counterexample: the round-trip law fails for the
name-less shape.  Decoding `10.0.0.1:6379:1` and re-encoding it with
the expression of line 178 yields `10.0.0.1:6379:1 ` — the code
appends `' ' + name` unconditionally, so a trailing space appears when
the name was absent, and `encode(decode(x)) != x`. -/
theorem C3_roundtrip_counterexample :
    (decodeEntry ("10.0.0.1:6379:1".toList)).map encodeEntry ≠
      some ("10.0.0.1:6379:1".toList) ∧
    (decodeEntry ("10.0.0.1:6379:1".toList)).map encodeEntry =
      some ("10.0.0.1:6379:1 ".toList) :=
  ⟨by decide, by decide⟩

/-- Claim C3 as amended: for a well-formed `h:p:w name` entry (no
separator characters inside the segments) the decode/encode round trip
is the identity; decoding is insensitive to a missing name segment
(the name defaults to empty); but a name-less `h:p:w` entry re-encodes
with the name rendered as an empty segment after a trailing space,
`h:p:w ` — not byte-identically. -/
theorem C3_roundtrip_amended (h p w n : List Char)
    (hhs : ' ' ∉ h) (hhc : ':' ∉ h) (hps : ' ' ∉ p) (hpc : ':' ∉ p)
    (hws : ' ' ∉ w) (hwc : ':' ∉ w) (hns : ' ' ∉ n) :
    decodeEntry (h ++ ':' :: (p ++ ':' :: (w ++ ' ' :: n))) = some ⟨h, p, w, n⟩ ∧
    encodeEntry ⟨h, p, w, n⟩ = h ++ ':' :: (p ++ ':' :: (w ++ ' ' :: n)) ∧
    decodeEntry (h ++ ':' :: (p ++ ':' :: w)) = some ⟨h, p, w, []⟩ ∧
    encodeEntry ⟨h, p, w, []⟩ = (h ++ ':' :: (p ++ ':' :: w)) ++ [' '] := by
  have hsp : ' ' ∉ h ++ ':' :: (p ++ ':' :: w) := by
    intro hmem
    simp only [List.mem_append, List.mem_cons] at hmem
    rcases hmem with hm | hm | hm | hm | hm
    · exact hhs hm
    · exact absurd hm (by decide)
    · exact hps hm
    · exact absurd hm (by decide)
    · exact hws hm
  have hurl : pySplit ':' (h ++ ':' :: (p ++ ':' :: w)) = [h, p, w] := by
    rw [pySplit_append ':' h (p ++ ':' :: w) hhc, pySplit_append ':' p w hpc,
      pySplit_of_not_mem ':' w hwc]
  refine ⟨?_, ?_, ?_, ?_⟩
  · have hfull : h ++ ':' :: (p ++ ':' :: (w ++ ' ' :: n)) =
        (h ++ ':' :: (p ++ ':' :: w)) ++ ' ' :: n := by
      simp [List.append_assoc]
    rw [hfull]
    simp only [decodeEntry]
    rw [pySplit_append ' ' _ n hsp, pySplit_of_not_mem ' ' n hns]
    simp only [List.headD_cons, List.tail_cons, hurl]
  · simp [encodeEntry, List.append_assoc]
  · simp only [decodeEntry]
    rw [pySplit_of_not_mem ' ' _ hsp]
    simp only [List.headD_cons, List.tail_cons, List.headD_nil, hurl]
  · simp [encodeEntry, List.append_assoc]

/-- Witness for the amended C3 at the concrete segments of the
specification scenario entry `10.0.0.1:6379:1 shardA`. -/
theorem C3_roundtrip_amended_witness :
    decodeEntry ("10.0.0.1".toList ++ ':' :: ("6379".toList ++ ':' :: ("1".toList ++
        ' ' :: "shardA".toList))) =
      some ⟨"10.0.0.1".toList, "6379".toList, "1".toList, "shardA".toList⟩ ∧
    encodeEntry ⟨"10.0.0.1".toList, "6379".toList, "1".toList, "shardA".toList⟩ =
      "10.0.0.1".toList ++ ':' :: ("6379".toList ++ ':' :: ("1".toList ++
        ' ' :: "shardA".toList)) ∧
    decodeEntry ("10.0.0.1".toList ++ ':' :: ("6379".toList ++ ':' :: "1".toList)) =
      some ⟨"10.0.0.1".toList, "6379".toList, "1".toList, []⟩ ∧
    encodeEntry ⟨"10.0.0.1".toList, "6379".toList, "1".toList, []⟩ =
      ("10.0.0.1".toList ++ ':' :: ("6379".toList ++ ':' :: "1".toList)) ++ [' '] :=
  C3_roundtrip_amended "10.0.0.1".toList "6379".toList "1".toList "shardA".toList
    (by decide) (by decide) (by decide) (by decide) (by decide) (by decide) (by decide)

theorem switchMaster_parse (io : IOOracle) (file : ProxyConfig)
    (t0 o1 o2 n1 n2 : List Char) (rest : List (List Char)) :
    switchMaster io file (t0 :: o1 :: o2 :: n1 :: n2 :: rest) =
      match updateMasters io file o1 o2 n1 n2 with
      | none => SwitchOutcome.crashed
      | some u => SwitchOutcome.handled u (if u.reportedChanged then 1 else 0) := by
  unfold switchMaster
  rw [if_pos (by simp [List.length_cons])]
  rfl

/-- Claim C6: when the configuration loads, no entry matches and the
write succeeds, the call reports `changed = false`, still re-encodes
and writes the (unchanged) document back, and `_restart_twemproxy` is
not invoked for that event. -/
theorem C6_no_match_still_writes_and_skips_reload
    (cfg : ProxyConfig) (oldH oldP newH newP : List Char)
    (hwf : ∀ p ∈ cfg, ∀ s ∈ p.servers, (decodeEntry s).isSome)
    (hnm : ∀ p ∈ cfg, ∀ s ∈ p.servers, entryMatches oldH oldP s = false) :
    updateMasters ⟨true, true⟩ cfg oldH oldP newH newP =
      some (UpdateResult.done cfg true false) ∧
    (updateMasters ⟨true, true⟩ cfg oldH oldP newH newP).map UpdateResult.writeAttempted =
      some true ∧
    ∀ t0 rest, switchMaster ⟨true, true⟩ cfg (t0 :: oldH :: oldP :: newH :: newP :: rest) =
      SwitchOutcome.handled (UpdateResult.done cfg true false) 0 := by
  have hmap : cfg.map (poolRewrite oldH oldP newH newP) = cfg :=
    map_id_of_eq _ cfg (fun p hp => poolRewrite_of_no_match oldH oldP newH newP p (hnm p hp))
  have hflag : cfg.any (fun p => p.servers.any (entryMatches oldH oldP)) = false := by
    rw [List.any_eq_false]
    intro p hp
    rw [Bool.not_eq_true, List.any_eq_false]
    intro s hs
    rw [Bool.not_eq_true]
    exact hnm p hp s hs
  have hupd : updateMasters ⟨true, true⟩ cfg oldH oldP newH newP =
      some (UpdateResult.done cfg true false) := by
    unfold updateMasters
    rw [rewriteConfig_eq oldH oldP newH newP cfg hwf, hmap, hflag]
    rfl
  refine ⟨hupd, by rw [hupd]; rfl, fun t0 rest => ?_⟩
  rw [switchMaster_parse, hupd]
  rfl

/-- Claim C7: when the configuration loads but the write back fails,
the caught write exception forces `b_updated = False`, so the call
reports no change regardless of any matches found, and the reload is
not triggered; the on-disk file keeps its previous contents. -/
theorem C7_write_failure_forces_no_change
    (cfg : ProxyConfig) (oldH oldP newH newP : List Char)
    (hwf : ∀ p ∈ cfg, ∀ s ∈ p.servers, (decodeEntry s).isSome) :
    ∃ cfg',
      updateMasters ⟨true, false⟩ cfg oldH oldP newH newP =
        some (UpdateResult.done cfg' false false) ∧
      (UpdateResult.done cfg' false false).reportedChanged = false ∧
      fileAfterUpdate cfg (UpdateResult.done cfg' false false) = cfg ∧
      ∀ t0 rest, switchMaster ⟨true, false⟩ cfg (t0 :: oldH :: oldP :: newH :: newP :: rest) =
        SwitchOutcome.handled (UpdateResult.done cfg' false false) 0 := by
  have hupd : updateMasters ⟨true, false⟩ cfg oldH oldP newH newP =
      some (UpdateResult.done (cfg.map (poolRewrite oldH oldP newH newP)) false false) := by
    unfold updateMasters
    rw [rewriteConfig_eq oldH oldP newH newP cfg hwf]
    rfl
  refine ⟨cfg.map (poolRewrite oldH oldP newH newP), hupd, rfl, rfl, fun t0 rest => ?_⟩
  rw [switchMaster_parse, hupd]
  rfl

/-- Claim C8: when loading or decoding the configuration fails, the
caught exception makes `_update_masters` fall through returning `None`:
no write is attempted, the reload is not triggered, and the listening
loop goes on to the next polled message with the file untouched — the
failed event is not retried and the daemon does not terminate. -/
theorem C8_load_failure_no_write_and_loop_continues
    (io : IOOracle) (hload : io.loadOk = false)
    (file : ProxyConfig) (oldH oldP newH newP : List Char) :
    updateMasters io file oldH oldP newH newP = some UpdateResult.loadFailed ∧
    UpdateResult.loadFailed.writeAttempted = false ∧
    (∀ t0 rest, switchMaster io file (t0 :: oldH :: oldP :: newH :: newP :: rest) =
      SwitchOutcome.handled UpdateResult.loadFailed 0) ∧
    ∀ d t0 ts msgs, pySplit ' ' d = t0 :: oldH :: oldP :: newH :: newP :: ts →
      runLoop file ((Message.payload d, io) :: msgs) =
        ⟨SwitchOutcome.handled UpdateResult.loadFailed 0 :: (runLoop file msgs).outcomes,
          (runLoop file msgs).finalFile, (runLoop file msgs).crashed⟩ := by
  have hupd : updateMasters io file oldH oldP newH newP = some UpdateResult.loadFailed := by
    unfold updateMasters
    rw [hload]
    rfl
  have hswitch : ∀ t0 rest, switchMaster io file (t0 :: oldH :: oldP :: newH :: newP :: rest) =
      SwitchOutcome.handled UpdateResult.loadFailed 0 := by
    intro t0 rest
    rw [switchMaster_parse, hupd]
    rfl
  refine ⟨hupd, rfl, hswitch, fun d t0 ts msgs hsplitd => ?_⟩
  simp only [runLoop]
  rw [hsplitd, hswitch t0 ts]
  rfl

/-- Claim C9: for every successfully parsed event (a payload whose
split has at least five tokens) whose reconciliation completes,
`_switch_master` invokes `_restart_twemproxy` exactly once if the
`_update_masters` result is truthy and never otherwise. -/
theorem C9_reload_fires_exactly_iff_changed
    (io : IOOracle) (file : ProxyConfig) (t0 o1 o2 n1 n2 : List Char)
    (rest : List (List Char)) (u : UpdateResult)
    (hu : updateMasters io file o1 o2 n1 n2 = some u) :
    switchMaster io file (t0 :: o1 :: o2 :: n1 :: n2 :: rest) =
      SwitchOutcome.handled u (if u.reportedChanged then 1 else 0) ∧
    (u.reportedChanged = true →
      switchMaster io file (t0 :: o1 :: o2 :: n1 :: n2 :: rest) =
        SwitchOutcome.handled u 1) ∧
    (u.reportedChanged = false →
      switchMaster io file (t0 :: o1 :: o2 :: n1 :: n2 :: rest) =
        SwitchOutcome.handled u 0) := by
  have hbase : switchMaster io file (t0 :: o1 :: o2 :: n1 :: n2 :: rest) =
      SwitchOutcome.handled u (if u.reportedChanged then 1 else 0) := by
    rw [switchMaster_parse, hu]
  exact ⟨hbase, fun hc => by rw [hbase, hc]; rfl, fun hc => by rw [hbase, hc]; rfl⟩

/-- Witness for C6: the specification's no-match scenario — event
`mymaster 9.9.9.9 9999 10.0.0.5 6381` against the sample
configuration. -/
theorem C6_no_match_witness :
    updateMasters ⟨true, true⟩ sampleConfig "9.9.9.9".toList "9999".toList
        "10.0.0.5".toList "6381".toList =
      some (UpdateResult.done sampleConfig true false) ∧
    (updateMasters ⟨true, true⟩ sampleConfig "9.9.9.9".toList "9999".toList
        "10.0.0.5".toList "6381".toList).map UpdateResult.writeAttempted = some true ∧
    switchMaster ⟨true, true⟩ sampleConfig
        ("mymaster".toList :: "9.9.9.9".toList :: "9999".toList ::
          "10.0.0.5".toList :: "6381".toList :: []) =
      SwitchOutcome.handled (UpdateResult.done sampleConfig true false) 0 := by
  have h := C6_no_match_still_writes_and_skips_reload sampleConfig "9.9.9.9".toList
    "9999".toList "10.0.0.5".toList "6381".toList (by decide) (by decide)
  exact ⟨h.1, h.2.1, h.2.2 "mymaster".toList []⟩

/-- Witness for C7: even though `10.0.0.1:6379` matches an entry of the
sample configuration, a failed write forces the no-change report and no
reload. -/
theorem C7_write_failure_witness :
    ∃ cfg',
      updateMasters ⟨true, false⟩ sampleConfig "10.0.0.1".toList "6379".toList
          "10.0.0.5".toList "6381".toList =
        some (UpdateResult.done cfg' false false) ∧
      (UpdateResult.done cfg' false false).reportedChanged = false ∧
      fileAfterUpdate sampleConfig (UpdateResult.done cfg' false false) = sampleConfig ∧
      switchMaster ⟨true, false⟩ sampleConfig
          ("mymaster".toList :: "10.0.0.1".toList :: "6379".toList ::
            "10.0.0.5".toList :: "6381".toList :: []) =
        SwitchOutcome.handled (UpdateResult.done cfg' false false) 0 := by
  obtain ⟨cfg', h1, h2, h3, h4⟩ := C7_write_failure_forces_no_change sampleConfig
    "10.0.0.1".toList "6379".toList "10.0.0.5".toList "6381".toList (by decide)
  exact ⟨cfg', h1, h2, h3, h4 "mymaster".toList []⟩

/-- Witness for C8: a load failure on the matching event leaves the
sample configuration untouched, triggers no reload, and the loop goes
on (here: to an empty remainder, terminating normally). -/
theorem C8_load_failure_witness :
    updateMasters ⟨false, true⟩ sampleConfig "9.9.9.9".toList "9999".toList
        "10.0.0.5".toList "6381".toList = some UpdateResult.loadFailed ∧
    switchMaster ⟨false, true⟩ sampleConfig
        ("mymaster".toList :: "9.9.9.9".toList :: "9999".toList ::
          "10.0.0.5".toList :: "6381".toList :: []) =
      SwitchOutcome.handled UpdateResult.loadFailed 0 ∧
    runLoop sampleConfig
        [(Message.payload "mymaster 9.9.9.9 9999 10.0.0.5 6381".toList, ⟨false, true⟩)] =
      ⟨SwitchOutcome.handled UpdateResult.loadFailed 0 :: (runLoop sampleConfig []).outcomes,
        (runLoop sampleConfig []).finalFile, (runLoop sampleConfig []).crashed⟩ := by
  have h := C8_load_failure_no_write_and_loop_continues ⟨false, true⟩ rfl sampleConfig
    "9.9.9.9".toList "9999".toList "10.0.0.5".toList "6381".toList
  exact ⟨h.1, h.2.2.1 "mymaster".toList [], h.2.2.2
    "mymaster 9.9.9.9 9999 10.0.0.5 6381".toList "mymaster".toList [] [] (by decide)⟩

/-- Witness for C9: the specification's matching scenario reloads
exactly once. -/
theorem C9_reload_witness :
    switchMaster ⟨true, true⟩ sampleConfig
        ("mymaster".toList :: "10.0.0.1".toList :: "6379".toList ::
          "10.0.0.5".toList :: "6381".toList :: []) =
      SwitchOutcome.handled
        (UpdateResult.done
          [⟨"pool_a".toList, ["10.0.0.5:6381:1 shardA".toList, "10.0.0.2:6380:1 shardB".toList]⟩]
          true true)
        (if (UpdateResult.done
          [⟨"pool_a".toList, ["10.0.0.5:6381:1 shardA".toList, "10.0.0.2:6380:1 shardB".toList]⟩]
          true true).reportedChanged then 1 else 0) ∧
    ((UpdateResult.done
        [⟨"pool_a".toList, ["10.0.0.5:6381:1 shardA".toList, "10.0.0.2:6380:1 shardB".toList]⟩]
        true true).reportedChanged = true →
      switchMaster ⟨true, true⟩ sampleConfig
          ("mymaster".toList :: "10.0.0.1".toList :: "6379".toList ::
            "10.0.0.5".toList :: "6381".toList :: []) =
        SwitchOutcome.handled
          (UpdateResult.done
            [⟨"pool_a".toList, ["10.0.0.5:6381:1 shardA".toList, "10.0.0.2:6380:1 shardB".toList]⟩]
            true true) 1) := by
  have h := C9_reload_fires_exactly_iff_changed ⟨true, true⟩ sampleConfig
    "mymaster".toList "10.0.0.1".toList "6379".toList "10.0.0.5".toList "6381".toList []
    (UpdateResult.done
      [⟨"pool_a".toList, ["10.0.0.5:6381:1 shardA".toList, "10.0.0.2:6380:1 shardB".toList]⟩]
      true true)
    (by decide)
  exact ⟨h.1, h.2.1⟩

end Beholder
